import Mathlib

/-! Verification of the modesto district-heating optimizer core.

Shallow embedding of `src/modesto/parameter.py`, `src/modesto/component.py`
and `src/modesto/main.py` (Python 2).  Pyomo decision variables indexed by
`model.TIME` are modelled as functions `ℕ → ℚ` (or `ℕ → ℝ` where the source
uses `math.exp`); a constraint rule that returns `Constraint.Skip` is
modelled as `Option Prop` with value `none`; a Python function that can
`raise` is modelled with `Except String`.
-/

/-! ## Parameter subsystem (`src/modesto/parameter.py`) -/

/-- Python `Parameter` (parameter.py lines 6-62): a named, described value holder
whose `value` is `None` until one is supplied.  The payload type is a type
parameter, since Python parameters are untyped. -/
structure Parameter (α : Type) where
  name : String
  description : String
  unit : String
  value : Option α
deriving DecidableEq

/-- Python `Parameter.get_description` (parameter.py lines 43-48). -/
def Parameter.get_description (p : Parameter α) : String :=
  "Description: " ++ p.description ++ "\nUnit: [" ++ p.unit ++ "]"

/-- Python `Parameter.check` (parameter.py lines 33-41): when `value` is `None` an
error message is printed and a bare `raise` aborts (modelled as `.error`
carrying the printed message).  Otherwise the method falls through and
returns Python `None`; the Python return value is modelled as `Option Bool`
(`none` = Python `None`, which is falsy). -/
def Parameter.check (p : Parameter α) : Except String (Option Bool) :=
  if p.value.isNone then
    .error ("ERROR: " ++ p.name ++
      " does not have a value yet. Please, add one before optimizing." ++
      p.get_description)
  else
    .ok none

/-- Python truthiness of the modelled `Option Bool` values. -/
def pyTruthy : Option Bool → Bool
  | none => false
  | some b => b

/-- Python `DataFrameParameter` (parameter.py lines 95-144): a series parameter.
The pandas DataFrame value is modelled as the ordered list of its single
column's entries, with integer index `0 .. length-1` (the only form the
repository feeds in: an ordered list of `step_count` values indexed from 0).
`nvals` is `Option ℕ` because `UserDataParameter.__init__` (lines 147-159)
forwards its `val` argument — by default `None` — into the `nvals`
positional slot of `DataFrameParameter.__init__`. -/
structure DataFrameParameter (α : Type) where
  name : String
  description : String
  unit : String
  nvals : Option ℕ
  value : Option (List α)
deriving DecidableEq

/-- Python `DataFrameParameter.change_value` (parameter.py lines 132-144): asserts
that the new value has exactly `nvals` rows.  Note that Python's
`len(new_val.index) == self.nvals` is `False` whenever `nvals` is `None`,
which the comparison with `some` reproduces. -/
def DataFrameParameter.change_value (p : DataFrameParameter α)
    (new_val : List α) : Except String (DataFrameParameter α) :=
  if some new_val.length = p.nvals then
    .ok { p with value := some new_val }
  else
    .error ("The length of the given user data is " ++ toString new_val.length
      ++ ", but should be " ++
      (match p.nvals with
       | none => "None"
       | some k => toString k))

/-- Python `DataFrameParameter.get_value` (parameter.py lines 112-127).  With
`time=None` the method calls `Parameter.get_value(self)` but discards the
result and falls off the end, returning `None`.  With a `time` argument it
returns `None` when no value is set (after printing a warning), asserts the
index is valid, and returns `value.iloc[time][0]`. -/
def DataFrameParameter.get_value (p : DataFrameParameter α)
    (time : Option ℕ) : Except String (Option α) :=
  match time with
  | none => .ok none
  | some t =>
    match p.value with
    | none => .ok none
    | some df =>
      if h : t < df.length then
        .ok (some (df.get ⟨t, h⟩))
      else
        .error (toString t ++ " is not a valid index for the " ++ p.name ++
          " dataframe")

/-- Python `DataFrameParameter.v` (parameter.py lines 129-130). -/
def DataFrameParameter.v (p : DataFrameParameter α) (time : Option ℕ) :
    Except String (Option α) :=
  p.get_value time

/-- Python `UserDataParameter.__init__` (parameter.py lines 147-159) with its
default `val=None` — the only way `component.py` constructs one: `val` is
passed into the `nvals` positional slot, so `nvals` and `value` are both
`None`. -/
def UserDataParameter.default_init (name description unit : String) :
    DataFrameParameter α :=
  { name := name, description := description, unit := unit,
    nvals := none, value := none }

/-! ## Component data check (`src/modesto/component.py`) -/

/-- The slice of `Component` (component.py lines 12-49) that `check_data`
touches: the component name and its `params` map (modelled as an ordered
association list, matching Python dict iteration). -/
structure Component (α : Type) where
  name : String
  params : List (String × Parameter α)
deriving DecidableEq

/-- The loop body of `Component.check_data` (component.py lines 214-223):
`for name, param in self.params.items(): if not param.check(): raise ...`.
If `param.check()` itself raises, that error propagates; otherwise its
return value (always Python `None`) is tested for truthiness and, being
falsy, triggers the `raise Exception(...)`. -/
def Component.check_data_list (cname : String) :
    List (String × Parameter α) → Except String Unit
  | [] => .ok ()
  | (name, param) :: rest =>
    match param.check with
    | .error e => .error e
    | .ok v =>
      if pyTruthy v then
        Component.check_data_list cname rest
      else
        .error (name ++ " of " ++ cname ++
          " does not have a value yet. Please, add one before optimizing.\n"
          ++ param.get_description)

/-- Python `Component.check_data` (component.py lines 214-223). -/
def Component.check_data (c : Component α) : Except String Unit :=
  Component.check_data_list c.name c.params

/-- A concrete component whose single parameter does hold a value
(`delta_T = 20`), as `FixedProfile.create_params` would build it. -/
def completeComponent : Component ℚ :=
  { name := "building",
    params := [("delta_T",
      { name := "delta_T",
        description := "Temperature difference across substation",
        unit := "K",
        value := some 20 })] }

/-- The same component with the parameter value never assigned. -/
def incompleteComponent : Component ℚ :=
  { name := "building",
    params := [("delta_T",
      { name := "delta_T",
        description := "Temperature difference across substation",
        unit := "K",
        value := none })] }

/-- C1: the claim says `check_data()` succeeds when every parameter holds a
value.  The code does the opposite: `Parameter.check` returns `None` on a
set parameter, `not None` is `True`, so `check_data` raises its
"does not have a value yet" exception precisely for a parameter that has a
value; for an unset parameter the abort comes from `Parameter.check`'s own
bare `raise` instead.  Evaluated here at the concrete failing input
`completeComponent` (one parameter, value set): `check_data` errors. -/
theorem C1_check_data_rejects_complete_component :
    completeComponent.check_data =
      .error ("delta_T of building does not have a value yet. Please, add one before optimizing.\nDescription: Temperature difference across substation\nUnit: [K]")
    ∧ incompleteComponent.check_data =
      .error ("ERROR: delta_T does not have a value yet. Please, add one before optimizing.Description: Temperature difference across substation\nUnit: [K]") := by
  constructor <;> rfl

/-- C2: a series parameter whose expected length `nvals` equals the
horizon's step count `n` accepts exactly the series of length `n`; reading
the value back at every valid index returns the original entries; an
out-of-range read fails; a mismatched-length assignment is rejected. -/
theorem C2_series_parameter_roundtrip {α : Type} (p : DataFrameParameter α)
    (n : ℕ) (hn : p.nvals = some n) (xs : List α) (hxs : xs.length = n) :
    ∃ p', p.change_value xs = .ok p'
      ∧ (∀ t (ht : t < n), p'.get_value (some t) =
            .ok (some (xs.get ⟨t, by omega⟩)))
      ∧ (∀ t, n ≤ t → ∃ e, p'.get_value (some t) = .error e)
      ∧ (∀ ys : List α, ys.length ≠ n → ∃ e, p.change_value ys = .error e) := by
  refine ⟨{ p with value := some xs }, ?_, ?_, ?_, ?_⟩
  · simp [DataFrameParameter.change_value, hn, hxs]
  · intro t ht
    simp only [DataFrameParameter.get_value]
    rw [dif_pos (by omega)]
  · intro t ht
    refine ⟨toString t ++ " is not a valid index for the " ++ p.name ++
      " dataframe", ?_⟩
    simp only [DataFrameParameter.get_value]
    rw [dif_neg (by omega)]
  · intro ys hys
    refine ⟨"The length of the given user data is " ++ toString ys.length ++
      ", but should be " ++ toString n, ?_⟩
    simp only [DataFrameParameter.change_value, hn]
    rw [if_neg (by simp [hys])]

/-- Witness for C2 at a concrete input: `nvals = 2`, series `[3, 7]`. -/
theorem C2_series_parameter_roundtrip_witness :
    ∃ p', (DataFrameParameter.change_value
        { name := "heat_profile", description := "Heat use", unit := "W",
          nvals := some 2, value := none } [(3 : ℚ), 7]) = .ok p'
      ∧ (∀ t (ht : t < 2), p'.get_value (some t) =
            .ok (some (([(3 : ℚ), 7]).get ⟨t, by simpa using ht⟩)))
      ∧ (∀ t, 2 ≤ t → ∃ e, p'.get_value (some t) = .error e)
      ∧ (∀ ys : List ℚ, ys.length ≠ 2 → ∃ e,
            (DataFrameParameter.change_value
              { name := "heat_profile", description := "Heat use", unit := "W",
                nvals := some 2, value := none } ys) = .error e) :=
  C2_series_parameter_roundtrip
    { name := "heat_profile", description := "Heat use", unit := "W",
      nvals := some 2, value := none } 2 rfl [(3 : ℚ), 7] rfl

/-- C10: for every series parameter, `get_value()` and `v()` called with no
time argument return `None`, even when a series value has been set: the
whole stored series is never returned through the no-argument accessor. -/
theorem C10_no_time_accessor_returns_none {α : Type}
    (p : DataFrameParameter α) :
    p.get_value none = .ok none ∧ p.v none = .ok none :=
  ⟨rfl, rfl⟩

/-! ## Variable producer ramping (`ProducerVariable.compile`,
`src/modesto/component.py` lines 685-735)

Decision variables `heat_flow` and `ramping_cost` are functions `ℕ → ℚ`;
each Pyomo constraint rule is a function of `t` returning `Option Prop`,
with `none` standing for `Constraint.Skip`. -/

/-- Satisfaction of an optional constraint: a skipped rule constrains
nothing. -/
def constraintHolds : Option Prop → Prop
  | none => True
  | some P => P

/-- Python `_decl_upward_ramp` (component.py lines 708-712). -/
def decl_upward_ramp (ramp time_step : ℚ) (heat_flow : ℕ → ℚ) (t : ℕ) :
    Option Prop :=
  if t = 0 then none
  else some (heat_flow t - heat_flow (t - 1) ≤ ramp * time_step)

/-- Python `_decl_downward_ramp` (component.py lines 714-718). -/
def decl_downward_ramp (ramp time_step : ℚ) (heat_flow : ℕ → ℚ) (t : ℕ) :
    Option Prop :=
  if t = 0 then none
  else some (heat_flow (t - 1) - heat_flow t ≤ ramp * time_step)

/-- Python `_decl_upward_ramp_cost` (component.py lines 720-724). -/
def decl_upward_ramp_cost (ramp_cost : ℚ) (heat_flow ramping_cost : ℕ → ℚ)
    (t : ℕ) : Option Prop :=
  if t = 0 then some (ramping_cost t = 0)
  else some (ramping_cost t ≥ (heat_flow t - heat_flow (t - 1)) * ramp_cost)

/-- Python `_decl_downward_ramp_cost` (component.py lines 726-730). -/
def decl_downward_ramp_cost (ramp_cost : ℚ) (heat_flow ramping_cost : ℕ → ℚ)
    (t : ℕ) : Option Prop :=
  if t = 0 then none
  else some (ramping_cost t ≥ (heat_flow (t - 1) - heat_flow t) * ramp_cost)

/-- The two ramp-limit constraint families, instantiated over
`model.TIME = range(n_steps)` (component.py lines 732-733). -/
def producerRampLimitsHold (n : ℕ) (ramp time_step : ℚ)
    (heat_flow : ℕ → ℚ) : Prop :=
  ∀ t < n, constraintHolds (decl_upward_ramp ramp time_step heat_flow t) ∧
    constraintHolds (decl_downward_ramp ramp time_step heat_flow t)

/-- The two ramping-cost constraint families, instantiated over
`model.TIME` (component.py lines 734-735). -/
def producerRampCostHold (n : ℕ) (ramp_cost : ℚ)
    (heat_flow ramping_cost : ℕ → ℚ) : Prop :=
  ∀ t < n,
    constraintHolds (decl_upward_ramp_cost ramp_cost heat_flow ramping_cost t) ∧
    constraintHolds (decl_downward_ramp_cost ramp_cost heat_flow ramping_cost t)

/-- A heat trajectory with a single step of size `D` at time `t0`:
constant `a` before, constant `a + D` from `t0` on. -/
def stepTrajectory (a D : ℚ) (t0 : ℕ) : ℕ → ℚ :=
  fun t => if t < t0 then a else a + D

/-- The ramping-cost assignment that charges exactly one step. -/
def singleChargeCost (c : ℚ) (t0 : ℕ) : ℕ → ℚ :=
  fun t => if t = t0 then c else 0

/-- Unfolded form of the ramp-limit constraint families: nothing constrains
`t = 0`; each later step is bounded in both directions. -/
theorem rampLimitsHold_iff (n : ℕ) (r ts : ℚ) (hf : ℕ → ℚ) :
    producerRampLimitsHold n r ts hf ↔
      ∀ t, 0 < t → t < n → |hf t - hf (t - 1)| ≤ r * ts := by
  unfold producerRampLimitsHold
  constructor
  · intro h t ht htn
    have h2 := h t htn
    rw [decl_upward_ramp, decl_downward_ramp, if_neg (by omega : ¬ t = 0),
      if_neg (by omega : ¬ t = 0)] at h2
    rw [abs_sub_le_iff]
    exact h2
  · intro h t htn
    by_cases h0 : t = 0
    · subst h0
      simp [decl_upward_ramp, decl_downward_ramp, constraintHolds]
    · have h2 := h t (Nat.pos_of_ne_zero h0) htn
      rw [abs_sub_le_iff] at h2
      rw [decl_upward_ramp, decl_downward_ramp, if_neg h0, if_neg h0]
      exact h2

/-- Unfolded form of the ramping-cost constraint families. -/
theorem rampCostHold_iff (n : ℕ) (c : ℚ) (hf rc : ℕ → ℚ) :
    producerRampCostHold n c hf rc ↔
      ∀ t < n, (t = 0 → rc 0 = 0) ∧
        (0 < t → rc t ≥ (hf t - hf (t - 1)) * c ∧
                 rc t ≥ (hf (t - 1) - hf t) * c) := by
  unfold producerRampCostHold
  refine forall₂_congr ?_
  intro t htn
  by_cases h0 : t = 0
  · subst h0
    simp [decl_upward_ramp_cost, decl_downward_ramp_cost, constraintHolds]
  · rw [decl_upward_ramp_cost, decl_downward_ramp_cost, if_neg h0, if_neg h0]
    simp only [constraintHolds]
    constructor
    · intro h
      exact ⟨fun he => absurd he h0, fun _ => h⟩
    · intro h
      exact h.2 (Nat.pos_of_ne_zero h0)

/-- The backward difference of a single-step trajectory. -/
theorem stepTrajectory_diff (a s : ℚ) (t0 t : ℕ) (ht : 0 < t) :
    stepTrajectory a s t0 t - stepTrajectory a s t0 (t - 1) =
      if t = t0 then s else 0 := by
  simp only [stepTrajectory]
  rcases lt_trichotomy t t0 with h | h | h
  · rw [if_pos h, if_pos (by omega), if_neg (by omega)]; ring
  · subst h
    rw [if_neg (by omega), if_pos (by omega), if_pos rfl]; ring
  · rw [if_neg (by omega), if_neg (by omega), if_neg (by omega)]; ring

/-- Any ramping-cost vector feasible for a single-step trajectory has total
at least `|s| · c`. -/
theorem singleStep_cost_lb (n t0 : ℕ) (c a s : ℚ) (hc : 0 ≤ c)
    (ht0 : 0 < t0) (ht0n : t0 < n) (rc : ℕ → ℚ)
    (h : producerRampCostHold n c (stepTrajectory a s t0) rc) :
    |s| * c ≤ ∑ t ∈ Finset.range n, rc t := by
  rw [rampCostHold_iff] at h
  have key : ∀ t, 0 < t → t < n →
      rc t ≥ (if t = t0 then s else 0) * c ∧
      rc t ≥ -(if t = t0 then s else 0) * c := by
    intro t hpos htn
    obtain ⟨h1, h2⟩ := (h t htn).2 hpos
    have e1 := stepTrajectory_diff a s t0 t hpos
    have e2 : stepTrajectory a s t0 (t - 1) - stepTrajectory a s t0 t =
        -(if t = t0 then s else 0) := by
      rw [← e1]; ring
    rw [e1] at h1
    rw [e2] at h2
    exact ⟨h1, h2⟩
  have hnn : ∀ t ∈ Finset.range n, 0 ≤ rc t := by
    intro t htr
    have htn := Finset.mem_range.mp htr
    rcases Nat.eq_zero_or_pos t with h0 | hpos
    · subst h0
      rw [(h 0 htn).1 rfl]
    · obtain ⟨h1, h2⟩ := key t hpos htn
      by_cases he : t = t0
      · rw [if_pos he] at h1 h2
        rcases le_or_lt 0 s with hsgn | hsgn
        · nlinarith
        · nlinarith
      · rw [if_neg he] at h1
        linarith
  have hsum : rc t0 ≤ ∑ t ∈ Finset.range n, rc t :=
    Finset.single_le_sum hnn (Finset.mem_range.mpr ht0n)
  obtain ⟨h1, h2⟩ := key t0 ht0 ht0n
  rw [if_pos rfl] at h1 h2
  rcases abs_cases s with ⟨habs, _⟩ | ⟨habs, _⟩
  · rw [habs]; linarith
  · rw [habs]; linarith

/-- The cost vector charging `|s| · c` at the step time and `0` elsewhere is
feasible for the single-step trajectory. -/
theorem singleStep_cost_feasible (n t0 : ℕ) (c a s : ℚ) (hc : 0 ≤ c)
    (ht0 : 0 < t0) :
    producerRampCostHold n c (stepTrajectory a s t0)
      (singleChargeCost (|s| * c) t0) := by
  rw [rampCostHold_iff]
  intro t htn
  constructor
  · intro h0
    simp only [singleChargeCost]
    rw [if_neg (by omega : ¬ (0:ℕ) = t0)]
  · intro hpos
    have e1 := stepTrajectory_diff a s t0 t hpos
    have e2 : stepTrajectory a s t0 (t - 1) - stepTrajectory a s t0 t =
        -(if t = t0 then s else 0) := by
      rw [← e1]; ring
    rw [e1, e2]
    simp only [singleChargeCost]
    by_cases he : t = t0
    · rw [if_pos he, if_pos he]
      constructor
      · exact mul_le_mul_of_nonneg_right (le_abs_self s) hc
      · have := mul_le_mul_of_nonneg_right (neg_abs_le s) hc
        nlinarith [this]
    · rw [if_neg he, if_neg he]
      norm_num

/-- The total of the single-charge cost vector over the horizon. -/
theorem singleChargeCost_sum (n t0 : ℕ) (c : ℚ) (ht0n : t0 < n) :
    ∑ t ∈ Finset.range n, singleChargeCost c t0 t = c := by
  simp only [singleChargeCost]
  rw [Finset.sum_ite_eq' (Finset.range n) t0 (fun _ => c)]
  rw [if_pos (Finset.mem_range.mpr ht0n)]

/-- C4: (i) the compiled ramp constraints hold iff
`|heat_flow[t] - heat_flow[t-1]| ≤ ramp·time_step` for every `0 < t < n`,
with no constraint at `t = 0`; (ii) any feasible ramping cost satisfies
`cost[0] = 0` and the two-sided lower bound `cost[t] ≥ ±Δheat·ramp_cost` at
every later step; (iii) for a single step of size `D ≥ 0` at `t0` — upward
or downward — every feasible ramping-cost vector has total at least
`D·ramp_cost`, and a feasible vector attains that total, so the minimized
ramping cost equals `D·ramp_cost` exactly in either direction. -/
theorem C4_producer_ramping (n t0 : ℕ) (ramp time_step ramp_cost a D : ℚ)
    (hD : 0 ≤ D) (hrc : 0 ≤ ramp_cost) (ht0 : 0 < t0) (ht0n : t0 < n) :
    (∀ heat_flow : ℕ → ℚ,
      producerRampLimitsHold n ramp time_step heat_flow ↔
        ∀ t, 0 < t → t < n →
          |heat_flow t - heat_flow (t - 1)| ≤ ramp * time_step)
    ∧ (∀ heat_flow rcost_var : ℕ → ℚ,
        producerRampCostHold n ramp_cost heat_flow rcost_var →
          rcost_var 0 = 0 ∧
          ∀ t, 0 < t → t < n →
            rcost_var t ≥ (heat_flow t - heat_flow (t - 1)) * ramp_cost ∧
            rcost_var t ≥ (heat_flow (t - 1) - heat_flow t) * ramp_cost)
    ∧ (∀ rc : ℕ → ℚ,
        producerRampCostHold n ramp_cost (stepTrajectory a D t0) rc →
          D * ramp_cost ≤ ∑ t ∈ Finset.range n, rc t)
    ∧ producerRampCostHold n ramp_cost (stepTrajectory a D t0)
        (singleChargeCost (D * ramp_cost) t0)
    ∧ (∑ t ∈ Finset.range n, singleChargeCost (D * ramp_cost) t0 t
        = D * ramp_cost)
    ∧ (∀ rc : ℕ → ℚ,
        producerRampCostHold n ramp_cost (stepTrajectory a (-D) t0) rc →
          D * ramp_cost ≤ ∑ t ∈ Finset.range n, rc t)
    ∧ producerRampCostHold n ramp_cost (stepTrajectory a (-D) t0)
        (singleChargeCost (D * ramp_cost) t0) := by
  have habsD : |D| = D := abs_of_nonneg hD
  have habsnegD : |(-D)| = D := by rw [abs_neg, habsD]
  refine ⟨fun hf => rampLimitsHold_iff n ramp time_step hf, ?_, ?_, ?_, ?_, ?_, ?_⟩
  · intro hf rc hsat
    rw [rampCostHold_iff] at hsat
    have hn : 0 < n := by omega
    exact ⟨(hsat 0 hn).1 rfl, fun t ht htn => (hsat t htn).2 ht⟩
  · intro rc hsat
    have := singleStep_cost_lb n t0 ramp_cost a D hrc ht0 ht0n rc hsat
    rw [habsD] at this
    exact this
  · have := singleStep_cost_feasible n t0 ramp_cost a D hrc ht0
    rw [habsD] at this
    exact this
  · exact singleChargeCost_sum n t0 (D * ramp_cost) ht0n
  · intro rc hsat
    have := singleStep_cost_lb n t0 ramp_cost a (-D) hrc ht0 ht0n rc hsat
    rw [habsnegD] at this
    exact this
  · have := singleStep_cost_feasible n t0 ramp_cost a (-D) hrc ht0
    rw [habsnegD] at this
    exact this

/-- Witness for C4 at `n = 3`, `t0 = 1`, `ramp = 5`, `time_step = 1`,
`ramp_cost = 2`, `a = 0`, `D = 3`. -/
theorem C4_producer_ramping_witness :
    producerRampCostHold 3 2 (stepTrajectory 0 3 1) (singleChargeCost (3 * 2) 1)
      ∧ (∑ t ∈ Finset.range 3, singleChargeCost ((3:ℚ) * 2) 1 t = 3 * 2) :=
  ⟨(C4_producer_ramping 3 1 5 1 2 0 3 (by norm_num) (by norm_num)
      (by norm_num) (by norm_num)).2.2.2.1,
   (C4_producer_ramping 3 1 5 1 2 0 3 (by norm_num) (by norm_num)
      (by norm_num) (by norm_num)).2.2.2.2.1⟩

/-! ## Variable storage (`StorageVariable.compile`,
`src/modesto/component.py` lines 898-1015)

The derived geometry, heat-transfer coefficients and time constant are
real-valued; `math.exp` and `math.log` become `Real.exp` / `Real.log`, and
Python's `** (1/3)` (true division is active) becomes a real power. -/

noncomputable section StorageSection

/-- The design parameters read at the top of `StorageVariable.compile`
(component.py lines 907-917). -/
structure StorageParams where
  Thi : ℝ
  Tlo : ℝ
  volume : ℝ
  ar : ℝ
  dIns : ℝ
  kIns : ℝ

/-- Specific heat capacity `self.cp = 4180` (component.py line 40). -/
def cpWater : ℝ := 4180

/-- Tank width `w = (4 V / ar / π) ** (1/3)` (component.py line 920). -/
def StorageParams.w (p : StorageParams) : ℝ :=
  (4 * p.volume / p.ar / Real.pi) ^ ((1 : ℝ) / 3)

/-- Tank height `h = ar · w` (component.py line 921). -/
def StorageParams.h (p : StorageParams) : ℝ := p.ar * p.w

/-- Top/bottom surface `Atb = w²/4·π` (component.py line 923). -/
def StorageParams.Atb (p : StorageParams) : ℝ := p.w ^ (2 : ℕ) / 4 * Real.pi

/-- Side heat-transfer coefficient
`UAw = 2 π kIns h / log((w + 2 dIns)/w)` (component.py line 926). -/
def StorageParams.UAw (p : StorageParams) : ℝ :=
  2 * Real.pi * p.kIns * p.h / Real.log ((p.w + 2 * p.dIns) / p.w)

/-- Top/bottom heat-transfer coefficient `UAtb = Atb·kIns/dIns`
(component.py line 927). -/
def StorageParams.UAtb (p : StorageParams) : ℝ := p.Atb * p.kIns / p.dIns

/-- Time constant `tau = volume·1000·cp/UAw` (component.py line 930). -/
def StorageParams.tau (p : StorageParams) : ℝ :=
  p.volume * 1000 * cpWater / p.UAw

/-- State-independent heat loss `_heat_loss_ct` (component.py lines
942-944), with `temp_ret = Tlo` and `temp_sup = Thi`:
`UAw·(temp_ret − Te[t]) + UAtb·(temp_ret + temp_sup − Te[t])`. -/
def StorageParams.heat_loss_ct (p : StorageParams) (Te : ℕ → ℝ) (t : ℕ) : ℝ :=
  p.UAw * (p.Tlo - Te t) + p.UAtb * (p.Tlo + p.Thi - Te t)

/-- Python `_eq_heat_loss` (component.py lines 983-987), over `model.TIME`:
`heat_loss[t] == (1 − exp(−Δt/τ))·heat_stor[t]/Δt + heat_loss_ct[t]`. -/
def eq_heat_loss (p : StorageParams) (Te : ℕ → ℝ) (time_step : ℝ) (n : ℕ)
    (heat_stor heat_loss : ℕ → ℝ) : Prop :=
  ∀ t < n, heat_loss t =
    (1 - Real.exp (-(time_step / p.tau))) * heat_stor t / time_step +
      p.heat_loss_ct Te t

/-- Python `_state_eq` (component.py lines 990-995), over `model.TIME`:
`heat_stor[t+1] == heat_stor[t] + Δt·(heat_flow[t] − heat_loss[t])`. -/
def state_eq (time_step : ℝ) (n : ℕ)
    (heat_stor heat_flow heat_loss : ℕ → ℝ) : Prop :=
  ∀ t < n, heat_stor (t + 1) =
    heat_stor t + time_step * (heat_flow t - heat_loss t)

/-- The conjunction of the two storage equality-constraint families built by
`StorageVariable.compile`. -/
def storageFeasible (p : StorageParams) (Te : ℕ → ℝ) (time_step : ℝ) (n : ℕ)
    (heat_stor heat_flow heat_loss : ℕ → ℝ) : Prop :=
  eq_heat_loss p Te time_step n heat_stor heat_loss ∧
    state_eq time_step n heat_stor heat_flow heat_loss

end StorageSection

noncomputable section StorageClaim

/-- C5 amended: a feasible storage trajectory obeys the combined update
`heat_stor[t+1] = heat_stor[t] + Δt·(heat_flow[t] − ((1 − e^(−Δt/τ))·heat_stor[t]/Δt + heat_loss_ct[t]))`,
and — when `heat_flow ≡ 0`, the ambient-driven loss is nonnegative, and the
stored heat is nonnegative at every step — `heat_stor` is monotonically
non-increasing over the horizon.  (Without the added nonnegativity of the
stored heat the decay consequence fails; see the counterexample.) -/
theorem C5_storage_decay (p : StorageParams) (Te : ℕ → ℝ) (time_step : ℝ)
    (n : ℕ) (heat_stor heat_flow heat_loss : ℕ → ℝ)
    (hts : 0 < time_step) (htau : 0 < p.tau)
    (hfeas : storageFeasible p Te time_step n heat_stor heat_flow heat_loss)
    (hflow : ∀ t < n, heat_flow t = 0)
    (hamb : ∀ t < n, 0 ≤ p.heat_loss_ct Te t)
    (hnn : ∀ t < n, 0 ≤ heat_stor t) :
    (∀ t < n, heat_stor (t + 1) = heat_stor t + time_step * (heat_flow t -
        ((1 - Real.exp (-(time_step / p.tau))) * heat_stor t / time_step +
         p.heat_loss_ct Te t)))
    ∧ ∀ t < n, heat_stor (t + 1) ≤ heat_stor t := by
  obtain ⟨hl, hst⟩ := hfeas
  have hcomb : ∀ t < n, heat_stor (t + 1) = heat_stor t + time_step *
      (heat_flow t -
        ((1 - Real.exp (-(time_step / p.tau))) * heat_stor t / time_step +
         p.heat_loss_ct Te t)) := by
    intro t ht
    rw [hst t ht, hl t ht]
  refine ⟨hcomb, ?_⟩
  intro t ht
  have hts0 : time_step ≠ 0 := ne_of_gt hts
  have heps1 : Real.exp (-(time_step / p.tau)) < 1 := by
    apply Real.exp_lt_one_iff.mpr
    have : 0 < time_step / p.tau := div_pos hts htau
    linarith
  have heq := hcomb t ht
  rw [hflow t ht] at heq
  have hdist : time_step *
      ((1 - Real.exp (-(time_step / p.tau))) * heat_stor t / time_step) =
      (1 - Real.exp (-(time_step / p.tau))) * heat_stor t := by
    field_simp
  have hkey : heat_stor (t + 1) = heat_stor t -
      ((1 - Real.exp (-(time_step / p.tau))) * heat_stor t +
        time_step * p.heat_loss_ct Te t) := by
    rw [heq, mul_sub, mul_add, hdist]
    ring
  rw [hkey]
  have h1 : 0 ≤ (1 - Real.exp (-(time_step / p.tau))) * heat_stor t :=
    mul_nonneg (by linarith) (hnn t ht)
  have h2 : 0 ≤ time_step * p.heat_loss_ct Te t :=
    mul_nonneg (le_of_lt hts) (hamb t ht)
  linarith

/-- The concrete storage-parameter set used for the counterexample and the
witness: `Thi = 2`, `Tlo = 1`, `volume = ar = dIns = kIns = 1`. -/
def cexStorageParams : StorageParams :=
  { Thi := 2, Tlo := 1, volume := 1, ar := 1, dIns := 1, kIns := 1 }

/-- Constant zero ambient temperature series. -/
def cexTe : ℕ → ℝ := fun _ => 0

theorem cexStorageParams_w_pos : 0 < cexStorageParams.w := by
  have h : cexStorageParams.w =
      (4 * 1 / 1 / Real.pi) ^ ((1 : ℝ) / 3) := rfl
  rw [h]
  have hpi := Real.pi_pos
  exact Real.rpow_pos_of_pos (by positivity) _

theorem cexStorageParams_UAw_pos : 0 < cexStorageParams.UAw := by
  have hw := cexStorageParams_w_pos
  have hk : cexStorageParams.kIns = 1 := rfl
  have har : cexStorageParams.ar = 1 := rfl
  have hd : cexStorageParams.dIns = 1 := rfl
  unfold StorageParams.UAw StorageParams.h
  rw [hk, har, hd, mul_one, one_mul]
  apply div_pos
  · exact mul_pos (mul_pos (by norm_num : (0:ℝ) < 2) Real.pi_pos) hw
  · apply Real.log_pos
    rw [lt_div_iff₀ hw, one_mul]
    linarith

theorem cexStorageParams_UAtb_pos : 0 < cexStorageParams.UAtb := by
  have hw := cexStorageParams_w_pos
  have hk : cexStorageParams.kIns = 1 := rfl
  have hd : cexStorageParams.dIns = 1 := rfl
  unfold StorageParams.UAtb StorageParams.Atb
  rw [hk, hd, mul_one, div_one]
  exact mul_pos (div_pos (pow_pos hw 2) (by norm_num)) Real.pi_pos

theorem cexStorageParams_tau_pos : 0 < cexStorageParams.tau := by
  have hu := cexStorageParams_UAw_pos
  have hv : cexStorageParams.volume = 1 := rfl
  unfold StorageParams.tau cpWater
  rw [hv]
  exact div_pos (by norm_num) hu

theorem cexStorageParams_amb_pos :
    ∀ t, 0 < cexStorageParams.heat_loss_ct cexTe t := by
  intro t
  have h1 := cexStorageParams_UAw_pos
  have h2 := cexStorageParams_UAtb_pos
  have hThi : cexStorageParams.Thi = 2 := rfl
  have hTlo : cexStorageParams.Tlo = 1 := rfl
  unfold StorageParams.heat_loss_ct cexTe
  rw [hThi, hTlo]
  nlinarith

/-- Shorthand for the per-step retention factor at `Δt = 1`. -/
def cexEps : ℝ := Real.exp (-((1 : ℝ) / cexStorageParams.tau))

/-- Shorthand for the (constant) ambient-driven loss. -/
def cexAmb : ℝ := cexStorageParams.heat_loss_ct cexTe 0

/-- An initial stored heat strictly below `−amb/(1−ε)`. -/
def cexX0 : ℝ := -(cexAmb / (1 - cexEps)) - 1

/-- The counterexample stored-heat trajectory. -/
def cexHs : ℕ → ℝ := fun t => if t = 0 then cexX0 else cexEps * cexX0 - cexAmb

/-- The counterexample heat-flow trajectory (identically zero). -/
def cexHf : ℕ → ℝ := fun _ => 0

/-- The counterexample heat-loss trajectory. -/
def cexHl : ℕ → ℝ := fun _ => (1 - cexEps) * cexX0 / 1 + cexAmb

theorem cexEps_lt_one : cexEps < 1 := by
  have h := cexStorageParams_tau_pos
  unfold cexEps
  apply Real.exp_lt_one_iff.mpr
  have : 0 < (1 : ℝ) / cexStorageParams.tau := div_pos one_pos h
  linarith

/-- C5 counterexample: at the concrete parameter set, the trajectory
`cexHs`, together with `cexHf ≡ 0` and `cexHl`, satisfies both storage
constraint families; the ambient-driven loss is strictly positive; and yet
the stored heat strictly increases from `t = 0` to `t = 1` — so the claim's
decay consequence, stated without a nonnegativity proviso on the stored
heat, is false. -/
theorem C5_storage_decay_counterexample :
    storageFeasible cexStorageParams cexTe 1 1 cexHs cexHf cexHl
    ∧ (∀ t < 1, cexHf t = 0)
    ∧ (∀ t < 1, 0 < cexStorageParams.heat_loss_ct cexTe t)
    ∧ ¬ (∀ t < 1, cexHs (t + 1) ≤ cexHs t) := by
  have heps := cexEps_lt_one
  have hne : (1 : ℝ) - cexEps ≠ 0 := by linarith
  refine ⟨⟨?_, ?_⟩, ?_, ?_, ?_⟩
  · intro t ht
    interval_cases t
    show (1 - cexEps) * cexX0 / 1 + cexAmb =
      (1 - cexEps) * (if (0 : ℕ) = 0 then cexX0 else cexEps * cexX0 - cexAmb)
        / 1 + cexAmb
    rw [if_pos rfl]
  · intro t ht
    interval_cases t
    show cexEps * cexX0 - cexAmb =
      cexX0 + 1 * (0 - ((1 - cexEps) * cexX0 / 1 + cexAmb))
    ring
  · intro t _
    rfl
  · intro t _
    exact cexStorageParams_amb_pos t
  · intro hmono
    have h01 : cexHs 1 ≤ cexHs 0 := by simpa using hmono 0 (by norm_num)
    have hval : cexHs 1 - cexHs 0 = 1 - cexEps := by
      show (cexEps * cexX0 - cexAmb) - cexX0 = 1 - cexEps
      unfold cexX0
      field_simp
      ring
    linarith

/-- The witness stored-heat trajectory: starts empty, next step holds the
(negated) constant ambient loss. -/
def witHs : ℕ → ℝ := fun t => if t = 0 then 0 else -cexAmb

/-- The witness heat-loss trajectory. -/
def witHl : ℕ → ℝ := fun _ =>
  (1 - cexEps) * (0 : ℝ) / 1 + cexAmb

/-- Witness for C5 at the concrete parameter set: zero heat flow, zero
initial stored heat. -/
theorem C5_storage_decay_witness :
    (0 : ℝ) < 1 ∧ 0 < cexStorageParams.tau ∧
      (∀ t < 1, witHs (t + 1) ≤ witHs t) := by
  refine ⟨by norm_num, cexStorageParams_tau_pos, ?_⟩
  refine (C5_storage_decay cexStorageParams cexTe 1 1 witHs cexHf witHl
    (by norm_num) cexStorageParams_tau_pos ⟨?_, ?_⟩ ?_ ?_ ?_).2
  · intro t ht
    interval_cases t
    show (1 - cexEps) * (0 : ℝ) / 1 + cexAmb =
      (1 - Real.exp (-((1 : ℝ) / cexStorageParams.tau))) *
        (if (0 : ℕ) = 0 then (0 : ℝ) else -cexAmb) / 1 +
        cexStorageParams.heat_loss_ct cexTe 0
    rw [if_pos rfl]
    rfl
  · intro t ht
    interval_cases t
    show -cexAmb = (0 : ℝ) + 1 * (0 - ((1 - cexEps) * (0 : ℝ) / 1 + cexAmb))
    ring
  · intro t _
    rfl
  · intro t _
    exact le_of_lt (cexStorageParams_amb_pos t)
  · intro t ht
    interval_cases t
    show (0 : ℝ) ≤ 0
    exact le_refl 0

end StorageClaim

/-! ## Network compilation (`Modesto.compile`, `src/modesto/main.py`
lines 155-186)

The Pyomo `ConcreteModel` is modelled as the ordered list of the names of
its top-level components.  Assigning a component to a model attribute
(`self.model.TIME = Set(...)`, the objectives of `build_objectives`)
implicitly *replaces* any existing component of that name, and
`Node._make_block` / `Component.make_block` explicitly delete an existing
block before adding a fresh one (main.py lines 758-762, component.py lines
176-182) — both are remove-then-append.  A node's or pipe's inner
constraints live inside its named block and are recreated with it.  The
embedding covers the heat-only configuration (`pipe_model != 'NodeMethod'`,
so `temperature_driven` is `False` and `check_data` does not call
`add_mf`).  `Edge.compile` delegates to the pipe model, whose source
(pipe.py) is not under src/; modelled from the spec: each named model
element is created at most once per compile pass, with clear-and-recreate
semantics (spec section 5), i.e. the pipe re-registers its named block by
remove-then-append as well. -/

/-- Implicit-replacement registration of a named model component. -/
def setComp (m : List String) (cname : String) : List String :=
  (m.filter (fun x => decide (x ≠ cname))) ++ [cname]

/-- Register a list of named model components in order. -/
def applyAll (names : List String) (m : List String) : List String :=
  names.foldl setComp m

/-- Keep the last occurrence of every name (the net effect of repeated
implicit replacement starting from an empty model). -/
def tailDedup : List String → List String
  | [] => []
  | a :: rest => if a ∈ rest then tailDedup rest else a :: tailDedup rest

theorem mem_tailDedup {x : String} : ∀ {L : List String},
    x ∈ tailDedup L → x ∈ L := by
  intro L
  induction L with
  | nil => simp [tailDedup]
  | cons a rest ih =>
    simp only [tailDedup]
    by_cases h : a ∈ rest
    · rw [if_pos h]
      intro hx
      exact List.mem_cons_of_mem a (ih hx)
    · rw [if_neg h]
      intro hx
      rcases List.mem_cons.mp hx with h1 | h1
      · exact h1 ▸ List.mem_cons_self a rest
      · exact List.mem_cons_of_mem a (ih h1)

theorem tailDedup_nodup : ∀ L : List String, (tailDedup L).Nodup := by
  intro L
  induction L with
  | nil => simp [tailDedup]
  | cons a rest ih =>
    simp only [tailDedup]
    by_cases h : a ∈ rest
    · rw [if_pos h]; exact ih
    · rw [if_neg h]
      exact List.Nodup.cons (fun hx => h (mem_tailDedup hx)) ih

/-- Closed form of repeated implicit replacement: the surviving old entries
(in order) followed by the last occurrence of each new name. -/
theorem applyAll_eq (L : List String) (m : List String) :
    applyAll L m = m.filter (fun x => decide (x ∉ L)) ++ tailDedup L := by
  induction L generalizing m with
  | nil => simp [applyAll, tailDedup]
  | cons a rest ih =>
    show applyAll rest (setComp m a) = _
    rw [ih, setComp, List.filter_append, List.filter_filter]
    have hpred : ∀ x : String,
        (decide (x ∉ rest) && decide (x ≠ a)) = decide (x ∉ a :: rest) := by
      intro x
      by_cases h1 : x = a
      · subst h1
        simp
      · by_cases h2 : x ∈ rest <;> simp [h1, h2]
    rw [List.filter_congr (fun x _ => hpred x)]
    simp only [tailDedup]
    by_cases h : a ∈ rest
    · rw [if_pos h]
      have : List.filter (fun x => decide (x ∉ rest)) [a] = [] := by
        simp [h]
      rw [this, List.append_nil]
    · rw [if_neg h]
      have : List.filter (fun x => decide (x ∉ rest)) [a] = [a] := by
        simp [h]
      rw [this, List.append_assoc]
      rfl

/-- Registering the same names a second time is a no-op. -/
theorem applyAll_idem (L : List String) (m : List String) :
    applyAll L (applyAll L m) = applyAll L m := by
  rw [applyAll_eq, applyAll_eq L m, List.filter_append]
  have h1 : List.filter (fun x => decide (x ∉ L))
      (List.filter (fun x => decide (x ∉ L)) m) =
      List.filter (fun x => decide (x ∉ L)) m := by
    rw [List.filter_filter]
    apply List.filter_congr
    intro x _
    by_cases h : x ∈ L <;> simp [h]
  have h2 : List.filter (fun x => decide (x ∉ L)) (tailDedup L) = [] := by
    rw [List.filter_eq_nil_iff]
    intro x hx
    simp [mem_tailDedup hx]
  rw [h1, h2, List.append_nil]

/-- A compile pass starting from an empty model registers every name at
most once. -/
theorem applyAll_nil_nodup (L : List String) : (applyAll L []).Nodup := by
  rw [applyAll_eq]
  simp [tailDedup_nodup L]

/-- The slice of the `Modesto` network object (main.py lines 21-64) that
`compile` touches, in the heat-only configuration: the `compiled` flag, the
general parameter `Te`, the flattened component map, the node and edge
names, and the Pyomo model. -/
structure Modesto (α : Type) where
  compiled : Bool
  TeParam : Parameter α
  comps : List (Component α)
  nodeNames : List String
  edgeNames : List String
  model : List String

/-- Python `Modesto.check_data` (main.py lines 219-232), heat-only configuration:
check the general parameters (`Te`), then every component's `check_data`. -/
def Modesto.check_data (s : Modesto α) : Except String Unit :=
  match s.TeParam.check with
  | .error e => .error e
  | .ok _ => s.comps.foldlM (fun _ c => c.check_data) ()

/-- The fixed order in which `Modesto.compile` registers named model
elements: `TIME`, `lines`, `Te` (main.py lines 170-176), then each edge's
pipe block (lines 179-180), then each node's block (lines 181-182), then
the four objectives of `build_objectives` (lines 207-210). -/
def Modesto.compileOrder (s : Modesto α) : List String :=
  ["TIME", "lines", "Te"] ++ s.edgeNames ++ s.nodeNames ++
    ["OBJ_ENERGY", "OBJ_COST", "OBJ_CO2", "OBJ_TEMP"]

/-- Python `Modesto.compile` (main.py lines 155-186).  An already-compiled model
only triggers a logged warning — there is no early return — after which
`check_data` runs again and every named element is re-registered with
replace semantics; finally the `compiled` flag is set.  The returned pair
is (warnings logged, resulting state or error). -/
def Modesto.compile (s : Modesto α) :
    List String × Except String (Modesto α) :=
  let warnings := if s.compiled then ["Model was already compiled."] else []
  match s.check_data with
  | .error e => (warnings, .error e)
  | .ok _ =>
    (warnings, .ok { s with
      compiled := true,
      model := applyAll s.compileOrder s.model })

/-- C3: on a freshly built network (empty model, not yet compiled) whose
first `compile` succeeds, calling `compile` a second time logs the
"already compiled" warning, raises no error, and returns the state
unchanged — no variable, constraint or other named model element is
duplicated, each name appearing at most once. -/
theorem C3_recompile_warns_and_is_noop {α : Type} (s s₁ : Modesto α)
    (w₁ : List String)
    (hfresh : s.model = []) (hc : s.compiled = false)
    (h1 : s.compile = (w₁, .ok s₁)) :
    s₁.compile = (["Model was already compiled."], .ok s₁)
    ∧ s₁.model.Nodup := by
  have hcd : ∃ u, s.check_data = .ok u := by
    rcases hok : s.check_data with e | u
    · rw [Modesto.compile, hok] at h1
      simp at h1
    · exact ⟨u, rfl⟩
  obtain ⟨u, hok⟩ := hcd
  have hs1 : s₁ = { s with
      compiled := true,
      model := applyAll s.compileOrder s.model } := by
    rw [Modesto.compile, hok] at h1
    have := congrArg Prod.snd h1
    simp only at this
    injection this with h
    exact h.symm
  have hcd1 : s₁.check_data = s.check_data := by
    rw [hs1]; rfl
  have horder : s₁.compileOrder = s.compileOrder := by
    rw [hs1]; rfl
  have hwarn : s₁.compiled = true := by
    rw [hs1]
  have hm : s₁.model = applyAll s.compileOrder s.model := by
    rw [hs1]
  have hmodel : applyAll s₁.compileOrder s₁.model = s₁.model := by
    rw [horder, hm]
    exact applyAll_idem _ _
  have hfix : ({ s₁ with compiled := true, model := applyAll s₁.compileOrder s₁.model } : Modesto α) = s₁ := by
    rw [hmodel, ← hwarn]
  constructor
  · rw [Modesto.compile, hcd1, hok, hwarn, hfix]
    simp
  · rw [hm, hfresh]
    exact applyAll_nil_nodup _

/-- The freshly built trivial witness network: `Te` set, no components, one
node, one edge, empty model, not yet compiled. -/
def witNet : Modesto ℚ := {
  compiled := false,
  TeParam := { name := "Te", description := "Ambient temperature",
               unit := "K", value := some 0 },
  comps := [],
  nodeNames := ["waterscheiGarden"],
  edgeNames := ["bbThor"],
  model := [] }

/-- The witness network after its first successful compile. -/
def witNetCompiled : Modesto ℚ := {
  compiled := true,
  TeParam := { name := "Te", description := "Ambient temperature",
               unit := "K", value := some 0 },
  comps := [],
  nodeNames := ["waterscheiGarden"],
  edgeNames := ["bbThor"],
  model := ["TIME", "lines", "Te", "bbThor", "waterscheiGarden",
            "OBJ_ENERGY", "OBJ_COST", "OBJ_CO2", "OBJ_TEMP"] }

/-- Witness for C3: the trivial network compiles once to `witNetCompiled`,
and recompiling it yields the warning and the very same state. -/
theorem C3_recompile_warns_and_is_noop_witness :
    witNetCompiled.compile =
      (["Model was already compiled."], .ok witNetCompiled) :=
  (C3_recompile_warns_and_is_noop witNet witNetCompiled [] rfl rfl
    (by rfl)).1

/-! ## Mass-flow solver (`Modesto.calculate_mf`, `src/modesto/main.py`
lines 494-538)

`inc_matrix = -nx.incidence_matrix(graph, oriented=True)` (line 504):
networkx puts `-1` at an edge's source and `+1` at its target, so after the
leading minus the entry is `+1` at the source (tail) and `-1` at the target
(head).  The last node's row is dropped (lines 510-514), the reduced square
system `matrix · sol = mf_nodes` is solved per time step (line 526), and
the dropped node's result entry is `sum(sol[i] * row[0, i])` (line 531),
which its components then share (lines 533-534).  The linear solve is an
external `numpy` call; it is represented by its defining property, the
hypothesis `rowDot v edges sol = d v` for every kept node `v`. -/

/-- A directed edge of the topology graph. -/
structure MfEdge where
  name : String
  tail : String
  head : String
deriving DecidableEq

/-- One entry of `-nx.incidence_matrix(graph, oriented=True)`. -/
def incEntry (v : String) (e : MfEdge) : ℚ :=
  if v = e.tail then 1 else if v = e.head then -1 else 0

/-- The dot product of a node's incidence row with the edge-flow vector. -/
def rowDot (v : String) (edges : List MfEdge) (sol : MfEdge → ℚ) : ℚ :=
  (edges.map (fun e => sol e * incEntry v e)).sum

/-- Python `result[left_out_node].append(sum(result[edge][-1] * row[0, i] ...))`
(main.py line 531). -/
def droppedNodeFlow (dropped : String) (edges : List MfEdge)
    (sol : MfEdge → ℚ) : ℚ :=
  rowDot dropped edges sol

/-- Python `result[comp].append(result[left_out_node][-1])` for each component of
the dropped node (main.py lines 533-534). -/
def droppedCompFlow (dropped : String) (edges : List MfEdge)
    (sol : MfEdge → ℚ) (comp : String) : ℚ :=
  droppedNodeFlow dropped edges sol

theorem list_sum_map_add {β : Type} (l : List β) (f g : β → ℚ) :
    (l.map (fun x => f x + g x)).sum = (l.map f).sum + (l.map g).sum := by
  induction l with
  | nil => simp
  | cons a l ih =>
    simp only [List.map_cons, List.sum_cons, ih]
    ring

theorem list_sum_ite_single (L : List String) (a : String) (c : ℚ)
    (hnodup : L.Nodup) (ha : a ∈ L) :
    (L.map (fun v => if v = a then c else 0)).sum = c := by
  induction L with
  | nil => cases ha
  | cons b L ih =>
    rcases List.mem_cons.mp ha with h | h
    · rw [List.map_cons, List.sum_cons, if_pos h.symm]
      have hnotin : b ∉ L := (List.nodup_cons.mp hnodup).1
      have hz : (L.map (fun v => if v = a then c else 0)).sum = 0 := by
        apply List.sum_eq_zero
        intro x hx
        rcases List.mem_map.mp hx with ⟨v, hv, hvx⟩
        rw [← hvx, if_neg]
        intro he
        exact hnotin (h ▸ he ▸ hv)
      rw [hz, add_zero]
    · have hba : b ≠ a := by
        intro he
        exact (List.nodup_cons.mp hnodup).1 (he ▸ h)
      rw [List.map_cons, List.sum_cons, if_neg hba,
        ih (List.nodup_cons.mp hnodup).2 h, zero_add]

/-- Each edge contributes `+1` at its tail and `-1` at its head, so its
incidence column sums to zero over any duplicate-free node list containing
both endpoints. -/
theorem incEntry_total (e : MfEdge) (L : List String) (hnodup : L.Nodup)
    (htail : e.tail ∈ L) (hhead : e.head ∈ L) (hne : e.tail ≠ e.head) :
    (L.map (fun v => incEntry v e)).sum = 0 := by
  have hsplit : ∀ v ∈ L, incEntry v e =
      (if v = e.tail then (1 : ℚ) else 0) +
      (if v = e.head then (-1 : ℚ) else 0) := by
    intro v _
    unfold incEntry
    by_cases h1 : v = e.tail
    · have h2 : ¬ v = e.head := by rw [h1]; exact hne
      simp [h1, h2, hne]
    · by_cases h2 : v = e.head <;> simp [h1, h2, hne, Ne.symm hne]
  rw [List.map_congr_left hsplit, list_sum_map_add,
    list_sum_ite_single L e.tail 1 hnodup htail,
    list_sum_ite_single L e.head (-1) hnodup hhead]
  norm_num

/-- Exchanging the two nested sums of the incidence pairing. -/
theorem rowDot_sum (L : List String) (edges : List MfEdge)
    (sol : MfEdge → ℚ) :
    (L.map (fun v => rowDot v edges sol)).sum =
      (edges.map (fun e =>
        sol e * (L.map (fun v => incEntry v e)).sum)).sum := by
  induction L with
  | nil =>
    simp [rowDot]
  | cons v L ih =>
    rw [List.map_cons, List.sum_cons, ih]
    simp only [rowDot, List.map_cons, List.sum_cons, mul_add]
    rw [← list_sum_map_add]

/-- C6 amended: for a solved mass-flow system (every kept node's incidence
row paired with the edge flows equals its net demand), the flow the code
assigns to the dropped node — the signed sum of its incident directed edge
flows — equals the *negative of the sum of the kept nodes' net demands*;
total network mass flow (dropped-node flow plus all kept demands) is
conserved exactly, and the dropped node's components are all assigned this
same flow.  (It equals the negative of the dropped node's *own* net demand
only when all node demands sum to zero; see the counterexample.) -/
theorem C6_dropped_node_flow (kept : List String) (dropped : String)
    (edges : List MfEdge) (d : String → ℚ) (sol : MfEdge → ℚ)
    (comps : List String)
    (hnodup : (kept ++ [dropped]).Nodup)
    (hends : ∀ e ∈ edges, e.tail ∈ kept ++ [dropped] ∧
      e.head ∈ kept ++ [dropped] ∧ e.tail ≠ e.head)
    (hsolve : ∀ v ∈ kept, rowDot v edges sol = d v) :
    droppedNodeFlow dropped edges sol = -((kept.map d).sum)
    ∧ droppedNodeFlow dropped edges sol + (kept.map d).sum = 0
    ∧ ∀ c ∈ comps, droppedCompFlow dropped edges sol c =
        droppedNodeFlow dropped edges sol := by
  have htotal : ((kept ++ [dropped]).map
      (fun v => rowDot v edges sol)).sum = 0 := by
    rw [rowDot_sum]
    apply List.sum_eq_zero
    intro x hx
    rcases List.mem_map.mp hx with ⟨e, he, hex⟩
    rw [← hex, incEntry_total e (kept ++ [dropped]) hnodup
      (hends e he).1 (hends e he).2.1 (hends e he).2.2, mul_zero]
  rw [List.map_append, List.sum_append, List.map_singleton,
    List.sum_singleton] at htotal
  have hkept : (kept.map (fun v => rowDot v edges sol)).sum =
      (kept.map d).sum := by
    rw [List.map_congr_left hsolve]
  rw [hkept] at htotal
  have hmain : droppedNodeFlow dropped edges sol = -((kept.map d).sum) := by
    unfold droppedNodeFlow
    linarith
  exact ⟨hmain, by rw [hmain]; ring, fun c _ => rfl⟩

/-- The concrete one-edge topology for the C6 counterexample and witness:
nodes `A` (kept) and `B` (dropped), one edge `A → B`. -/
def cexMfEdges : List MfEdge := [{ name := "edgeAB", tail := "A", head := "B" }]

/-- The solved edge flow (satisfying `rowDot A = demand A = 1`). -/
def cexMfSol : MfEdge → ℚ := fun _ => 1

/-- Node net demands: `A` demands `1`, `B`'s own components demand `5`. -/
def cexMfDemand : String → ℚ :=
  fun v => if v = "A" then 1 else if v = "B" then 5 else 0

/-- C6 counterexample: the one-edge system is solved for the kept node `A`,
yet the signed sum of edge flows incident to the dropped node `B` is `-1`,
which is *not* the negative of `B`'s own net demand `5` — the original
claim's conservation statement fails whenever the node demands do not sum
to zero. -/
theorem C6_dropped_node_flow_counterexample :
    (∀ v ∈ ["A"], rowDot v cexMfEdges cexMfSol = cexMfDemand v)
    ∧ droppedNodeFlow "B" cexMfEdges cexMfSol ≠ -(cexMfDemand "B") := by
  constructor
  · intro v hv
    rcases List.mem_singleton.mp hv with rfl
    norm_num [rowDot, cexMfEdges, cexMfSol, cexMfDemand, incEntry]
  · have hBA : ("B" : String) ≠ "A" := by decide
    norm_num [droppedNodeFlow, rowDot, cexMfEdges, cexMfSol, cexMfDemand,
      incEntry, hBA]

/-- Witness for C6 on the same concrete topology: the dropped node gets the
negative of the kept demands' sum, conservation closes, and its component
`backUp` is assigned the same flow. -/
theorem C6_dropped_node_flow_witness :
    droppedNodeFlow "B" cexMfEdges cexMfSol = -(((["A"]).map cexMfDemand).sum)
    ∧ droppedNodeFlow "B" cexMfEdges cexMfSol +
        ((["A"]).map cexMfDemand).sum = 0
    ∧ ∀ c ∈ ["backUp"], droppedCompFlow "B" cexMfEdges cexMfSol c =
        droppedNodeFlow "B" cexMfEdges cexMfSol :=
  C6_dropped_node_flow ["A"] "B" cexMfEdges cexMfDemand cexMfSol ["backUp"]
    (by decide) (by decide)
    (by
      intro v hv
      rcases List.mem_singleton.mp hv with rfl
      norm_num [rowDot, cexMfEdges, cexMfSol, cexMfDemand, incEntry])

/-! ## Temperature-driven node balance (`Node._add_bal`,
`src/modesto/main.py` lines 671-732)

Components are partitioned per line by their direction (lines 688-694):
direction `+1` is incoming on `supply` and outgoing on `return`, direction
`-1` the opposite; pipes by `get_direction(node) == -1` (lines 696-702).
One mixed temperature per line per step is defined by
`(Σ incoming mflo) · mix_temp == Σ (mflo · T)` (lines 709-715), and every
outgoing component and pipe is forced to it (lines 717-732). -/

/-- The slice of a temperature-driven component visible to the node
balance: `get_mflo(t) = direction * mass_flow[t]` (component.py lines
124-146) and `get_temperature(t, l) = temperatures[t, l]` (component.py
lines 96-111). -/
structure TDComp where
  name : String
  direction : ℤ
  mass_flow : ℕ → ℚ
  temperatures : ℕ → String → ℚ

def TDComp.get_mflo (c : TDComp) (t : ℕ) : ℚ :=
  c.direction * c.mass_flow t

def TDComp.get_temperature (c : TDComp) (t : ℕ) (l : String) : ℚ :=
  c.temperatures t l

/-- Modelled from the spec: the pipe accessor contract (spec section 6) —
pipe.py is not under src/.  Seen from one node, a pipe exposes a direction
`get_direction(node)` and signed accessors `get_mflo(node, t)` and
`get_temperature(node, t, l)`. -/
structure TDPipe where
  name : String
  direction : ℤ
  mflo : ℕ → ℚ
  temp : ℕ → String → ℚ

/-- Python `incoming_comps` (main.py lines 688-694). -/
def incomingComps (comps : List TDComp) (l : String) : List TDComp :=
  comps.filter (fun c =>
    if c.direction = 1 then decide (l = "supply") else decide (l = "return"))

/-- Python `outgoing_comps` (main.py lines 688-694). -/
def outgoingComps (comps : List TDComp) (l : String) : List TDComp :=
  comps.filter (fun c =>
    if c.direction = 1 then decide (l = "return") else decide (l = "supply"))

/-- Python `incoming_pipes` (main.py lines 696-702). -/
def incomingPipes (pipes : List TDPipe) (l : String) : List TDPipe :=
  pipes.filter (fun p =>
    if p.direction = -1 then decide (l = "supply") else decide (l = "return"))

/-- Python `outgoing_pipes` (main.py lines 696-702). -/
def outgoingPipes (pipes : List TDPipe) (l : String) : List TDPipe :=
  pipes.filter (fun p =>
    if p.direction = -1 then decide (l = "return") else decide (l = "supply"))

/-- Python `model.lines` (main.py line 171). -/
def linesList : List String := ["supply", "return"]

/-- Python `_temp_bal_incoming` (main.py lines 709-713). -/
def temp_bal_incoming (comps : List TDComp) (pipes : List TDPipe)
    (mix : ℕ → String → ℚ) (t : ℕ) (l : String) : Prop :=
  (((incomingComps comps l).map (fun c => c.get_mflo t)).sum +
    ((incomingPipes pipes l).map (fun p => p.mflo t)).sum) * mix t l =
  ((incomingComps comps l).map
    (fun c => c.get_mflo t * c.get_temperature t l)).sum +
  ((incomingPipes pipes l).map (fun p => p.mflo t * p.temp t l)).sum

/-- Python `_temp_bal_outgoing` over all components and pipes (main.py lines
717-732). -/
def temp_bal_outgoing (comps : List TDComp) (pipes : List TDPipe)
    (mix : ℕ → String → ℚ) (t : ℕ) (l : String) : Prop :=
  (∀ c ∈ outgoingComps comps l, c.get_temperature t l = mix t l) ∧
  (∀ p ∈ outgoingPipes pipes l, p.temp t l = mix t l)

/-- The full constraint set `_add_bal` emits for a temperature-driven node,
over `model.TIME × model.lines`. -/
def nodeBal (n : ℕ) (comps : List TDComp) (pipes : List TDPipe)
    (mix : ℕ → String → ℚ) : Prop :=
  ∀ t < n, ∀ l ∈ linesList,
    temp_bal_incoming comps pipes mix t l ∧
    temp_bal_outgoing comps pipes mix t l

/-- C7: in a compiled temperature-driven node, for every step and line the
mixed temperature satisfies `Σ(mflo·T) = mix_temp · Σ(mflo)` over the
incoming flows, every outgoing component and pipe on the line equals
`mix_temp`, and with exactly two incoming flows `(m1,T1)`, `(m2,T2)` (no
incoming pipes) and `m1+m2 ≠ 0`, the mixed temperature is their mass-flow
weighted average `(m1·T1 + m2·T2)/(m1 + m2)`. -/
theorem C7_node_temperature_mixing (n : ℕ) (comps : List TDComp)
    (pipes : List TDPipe) (mix : ℕ → String → ℚ)
    (h : nodeBal n comps pipes mix) :
    (∀ t < n, ∀ l ∈ linesList,
      ((incomingComps comps l).map
        (fun c => c.get_mflo t * c.get_temperature t l)).sum +
      ((incomingPipes pipes l).map (fun p => p.mflo t * p.temp t l)).sum =
        mix t l * (((incomingComps comps l).map (fun c => c.get_mflo t)).sum +
          ((incomingPipes pipes l).map (fun p => p.mflo t)).sum)
      ∧ (∀ c ∈ outgoingComps comps l, c.get_temperature t l = mix t l)
      ∧ (∀ p ∈ outgoingPipes pipes l, p.temp t l = mix t l))
    ∧ (∀ t < n, ∀ l ∈ linesList, ∀ c1 c2 : TDComp,
        incomingComps comps l = [c1, c2] → incomingPipes pipes l = [] →
        c1.get_mflo t + c2.get_mflo t ≠ 0 →
        mix t l = (c1.get_mflo t * c1.get_temperature t l +
          c2.get_mflo t * c2.get_temperature t l) /
          (c1.get_mflo t + c2.get_mflo t)) := by
  constructor
  · intro t ht l hl
    obtain ⟨hin, hout⟩ := h t ht l hl
    refine ⟨?_, hout.1, hout.2⟩
    rw [temp_bal_incoming] at hin
    linarith [hin]
  · intro t ht l hl c1 c2 hcomps hpipes hnz
    obtain ⟨hin, _⟩ := h t ht l hl
    rw [temp_bal_incoming, hcomps, hpipes] at hin
    simp only [List.map_cons, List.map_nil, List.sum_cons, List.sum_nil,
      add_zero] at hin
    rw [eq_div_iff hnz]
    linarith [hin]

/-- First witness component: a producer-direction flow of `1` kg/s at
`10` K on the supply line. -/
def witC1 : TDComp := {
  name := "plant1",
  direction := 1,
  mass_flow := fun _ => 1,
  temperatures := fun _ l => if l = "supply" then 10 else 0 }

/-- Second witness component: a producer-direction flow of `3` kg/s at
`20` K on the supply line. -/
def witC2 : TDComp := {
  name := "plant2",
  direction := 1,
  mass_flow := fun _ => 3,
  temperatures := fun _ l => if l = "supply" then 20 else 0 }

/-- The witness mixed temperature: `(1·10 + 3·20)/(1+3) = 35/2` on supply. -/
def witMix : ℕ → String → ℚ :=
  fun _ l => if l = "supply" then 35 / 2 else 0

theorem wit_nodeBal : nodeBal 1 [witC1, witC2] [] witMix := by
  intro t ht l hl
  interval_cases t
  rcases List.mem_cons.mp hl with rfl | hl'
  · constructor
    · norm_num [temp_bal_incoming, incomingComps, incomingPipes, witC1,
        witC2, witMix, TDComp.get_mflo, TDComp.get_temperature]
    · constructor
      · intro c hc
        have hsr : ("supply" : String) ≠ "return" := by decide
        norm_num [outgoingComps, witC1, witC2] at hc
        obtain ⟨hc1, hc2⟩ := hc
        rcases hc1 with rfl | rfl <;> simp [hsr] at hc2
      · intro p hp
        norm_num [outgoingPipes] at hp
  · rcases List.mem_singleton.mp hl' with rfl
    have hrs : ("return" : String) ≠ "supply" := by decide
    constructor
    · norm_num [temp_bal_incoming, incomingComps, incomingPipes, witC1,
        witC2, witMix, hrs]
    · constructor
      · intro c hc
        norm_num [outgoingComps, witC1, witC2, hrs] at hc
        rcases hc with rfl | rfl <;>
          norm_num [TDComp.get_temperature, witC1, witC2, witMix, hrs]
      · intro p hp
        norm_num [outgoingPipes] at hp

/-- Witness for C7: the two-flow node with flows `(1, 10)` and `(3, 20)`
mixes to `35/2`. -/
theorem C7_node_temperature_mixing_witness :
    witMix 0 "supply" = (witC1.get_mflo 0 * witC1.get_temperature 0 "supply" +
      witC2.get_mflo 0 * witC2.get_temperature 0 "supply") /
      (witC1.get_mflo 0 + witC2.get_mflo 0) :=
  (C7_node_temperature_mixing 1 [witC1, witC2] [] witMix wit_nodeBal).2
    0 (by norm_num) "supply" (by norm_num [linesList]) witC1 witC2
    (by norm_num [incomingComps, witC1, witC2])
    rfl
    (by norm_num [TDComp.get_mflo, witC1, witC2])

/-! ## Objective aggregation (`Modesto.build_objectives`,
`src/modesto/main.py` lines 188-217)

A component's objective contributions (`obj_energy`, `obj_cost`,
`obj_cost_ramp`, `obj_co2`, `obj_temp`, component.py lines 251-289 and
775-826; each defaults to `0` on the base class) are modelled by their
values.  `build_objectives` registers exactly four named minimization
objectives keyed `energy`, `cost`, `co2`, `temp` (lines 207-217); note that
the rule of the `temp` objective (line 205) sums `comp.obj_co2()` — not
`comp.obj_temp()` — and that no objective aggregates `obj_cost_ramp`. -/

/-- A component as seen by `build_objectives`: its five objective
contributions. -/
structure ObjComponent where
  name : String
  obj_energy : ℚ
  obj_cost : ℚ
  obj_cost_ramp : ℚ
  obj_co2 : ℚ
  obj_temp : ℚ
deriving DecidableEq

/-- Python `Modesto.build_objectives` (main.py lines 188-217), as the ordered
association list of objective name to aggregated expression value. -/
def build_objectives (comps : List ObjComponent) : List (String × ℚ) :=
  [("energy", (comps.map ObjComponent.obj_energy).sum),
   ("cost", (comps.map ObjComponent.obj_cost).sum),
   ("co2", (comps.map ObjComponent.obj_co2).sum),
   ("temp", (comps.map ObjComponent.obj_co2).sum)]

/-- A producer whose five objective contributions are pairwise distinct. -/
def demoProducer : ObjComponent := {
  name := "plant",
  obj_energy := 11,
  obj_cost := 13,
  obj_cost_ramp := 3,
  obj_co2 := 5,
  obj_temp := 7 }

/-- C8: the claim says the compiled network carries one objective per kind
in {energy, cost, costWithRamping, co2, temperature}, each summing the
same-kind contributions.  The code builds only four objectives — none for
`costWithRamping`, although `obj_cost_ramp` exists on producers — and its
`temp` objective aggregates the `obj_co2` contributions (main.py line 205),
not `obj_temp`.  Evaluated at the failing input `[demoProducer]`: the
`temp` objective is `5` (the CO2 contribution) while the component's
temperature contribution sums to `7`. -/
theorem C8_objectives_wrong_kinds :
    build_objectives [demoProducer] =
      [("energy", 11), ("cost", 13), ("co2", 5), ("temp", 5)]
    ∧ ([demoProducer].map ObjComponent.obj_temp).sum = 7
    ∧ ((5 : ℚ) ≠ 7)
    ∧ ([demoProducer].map ObjComponent.obj_cost_ramp).sum = 3 := by
  refine ⟨?_, ?_, by norm_num, ?_⟩
  · simp [build_objectives, demoProducer]
  · simp [demoProducer]
  · simp [demoProducer]

/-! ## Network assembly (`Modesto.__build_nodes`, `src/modesto/main.py`
lines 92-117)

Nodes are built one by one; each asserts its name is new (line 104), then
its freshly built component map is intersected with the components
collected so far, and a non-empty intersection aborts assembly (lines
113-117).  A node's own component names are the keys of one dict, hence
duplicate-free.  `build` — and so this check — runs inside
`Modesto.__init__` (lines 60-61), before `compile` can ever be invoked. -/

/-- One node of the input topology: its name and its component names. -/
structure TopoNode where
  name : String
  comps : List String
deriving DecidableEq

/-- The loop of `Modesto.__build_nodes` (main.py lines 102-117), carrying
the accumulated node names and component names. -/
def buildNodesAux : List TopoNode → List String → List String →
    Except String (List String)
  | [], _, compAcc => .ok compAcc
  | nd :: rest, nodeAcc, compAcc =>
    if nd.name ∈ nodeAcc then
      .error ("Node " ++ nd.name ++ " already exists")
    else if compAcc.inter nd.comps ≠ [] then
      .error ("Component(s) with name(s) " ++
        String.intercalate ", " (compAcc.inter nd.comps) ++ " is not unique!")
    else
      buildNodesAux rest (nodeAcc ++ [nd.name]) (compAcc ++ nd.comps)

/-- Python `Modesto.__build_nodes` (main.py lines 92-117). -/
def buildNodes (g : List TopoNode) : Except String (List String) :=
  buildNodesAux g [] []

theorem buildNodesAux_ok_iff :
    ∀ (g : List TopoNode) (nodeAcc compAcc : List String),
    nodeAcc.Nodup → compAcc.Nodup → (∀ nd ∈ g, nd.comps.Nodup) →
    ((∃ r, buildNodesAux g nodeAcc compAcc = .ok r) ↔
      ((nodeAcc ++ g.map TopoNode.name).Nodup ∧
       (compAcc ++ g.flatMap TopoNode.comps).Nodup)) := by
  intro g
  induction g with
  | nil =>
    intro nodeAcc compAcc hna hca _
    simp [buildNodesAux, hna, hca]
  | cons nd rest ih =>
    intro nodeAcc compAcc hna hca hpern
    by_cases h1 : nd.name ∈ nodeAcc
    · rw [buildNodesAux, if_pos h1]
      constructor
      · rintro ⟨r, hr⟩
        cases hr
      · rintro ⟨hn, _⟩
        exfalso
        rw [List.map_cons, ← List.singleton_append, ← List.append_assoc,
          List.nodup_append] at hn
        obtain ⟨hn1, -, -⟩ := hn
        rw [List.nodup_append] at hn1
        exact hn1.2.2 h1 (List.mem_singleton_self _)
    · by_cases h2 : compAcc.inter nd.comps ≠ []
      · rw [buildNodesAux, if_neg h1, if_pos h2]
        constructor
        · rintro ⟨r, hr⟩
          cases hr
        · rintro ⟨-, hcmp⟩
          exfalso
          apply h2
          apply List.inter_eq_nil_iff_disjoint.mpr
          rw [List.flatMap_cons, ← List.append_assoc,
            List.nodup_append] at hcmp
          obtain ⟨hcmp1, -, -⟩ := hcmp
          rw [List.nodup_append] at hcmp1
          intro x hx hx2
          exact hcmp1.2.2 hx hx2
      · rw [buildNodesAux, if_neg h1, if_neg h2]
        push_neg at h2
        have h2d : List.Disjoint compAcc nd.comps :=
          List.inter_eq_nil_iff_disjoint.mp h2
        have hna' : (nodeAcc ++ [nd.name]).Nodup := by
          rw [List.nodup_append]
          exact ⟨hna, List.nodup_singleton _,
            fun a ha hb => h1 ((List.mem_singleton.mp hb) ▸ ha)⟩
        have hca' : (compAcc ++ nd.comps).Nodup := by
          rw [List.nodup_append]
          exact ⟨hca, hpern nd (List.mem_cons_self nd rest), h2d⟩
        rw [ih (nodeAcc ++ [nd.name]) (compAcc ++ nd.comps) hna' hca'
          (fun x hx => hpern x (List.mem_cons_of_mem nd hx))]
        simp [List.flatMap_cons, List.append_assoc]

/-- C9: network assembly succeeds exactly when component names are globally
unique across the whole network; in particular, two nodes declaring a
same-named component abort assembly (which runs in the constructor, before
any compilation can occur) with a configuration error. -/
theorem C9_component_names_globally_unique (g : List TopoNode)
    (hnodes : (g.map TopoNode.name).Nodup)
    (hpern : ∀ nd ∈ g, nd.comps.Nodup) :
    (∃ r, buildNodes g = .ok r) ↔ (g.flatMap TopoNode.comps).Nodup := by
  rw [buildNodes, buildNodesAux_ok_iff g [] [] List.nodup_nil
    List.nodup_nil hpern]
  simp [hnodes]

/-- Witness for C9: two nodes both declaring a component named `plant`
make assembly fail. -/
theorem C9_component_names_globally_unique_witness :
    ((∃ r, buildNodes [{ name := "nodeA", comps := ["plant"] },
        { name := "nodeB", comps := ["plant"] }] = .ok r) ↔
      (([{ name := "nodeA", comps := ["plant"] },
         { name := "nodeB", comps := ["plant"] }] : List TopoNode).flatMap
        TopoNode.comps).Nodup)
    ∧ ¬ (([{ name := "nodeA", comps := ["plant"] },
         { name := "nodeB", comps := ["plant"] }] : List TopoNode).flatMap
        TopoNode.comps).Nodup :=
  ⟨C9_component_names_globally_unique _ (by decide) (by decide), by decide⟩
